import Mathlib

/-!
A verification development for the OpenLautrec document interchange layer
(`src/main.py`): the in-memory document model, the markup snapshot codec, the
`.olc` binary container codec (`save_as_olc` / `load_olc`), the word-processor
codec (`save_as_docx` / `load_docx` / `add_hyperlink`), the office-suite codec
(`save_as_odt` / `load_odt`), and the save dispatcher (`save_to_file`).

Modelling conventions:
- byte streams are `List Nat` (each element one byte where the wire format is
  concerned); Python strings are Lean `String`s;
- Python floats that the code only ever compares or divides exactly
  (image sizes in inches, font sizes in points) are `ℚ`;
- the IEEE-754 single-precision version field of the container header is
  decoded exactly into `ℚ` (plus infinity/NaN markers);
- Qt's `QTextDocument` is the Document Model: ordered blocks of runs, with a
  resource map from image identifier to blob, held in `EditorState`;
- external-library calls that merely transport bytes (gzip, pickle, Qt's HTML
  serializer) are modelled as explicit lossless codecs, see the individual
  doc comments.
-/

/-- RGB color triple, components 0–255 (Qt `QColor` red/green/blue). -/
structure RGB where
  r : Nat
  g : Nat
  b : Nat
  deriving DecidableEq

/-- Character-level formatting of a run (`QTextCharFormat`): font family and
point size, bold/italic/underline, foreground color and optional background
(highlight) color. -/
structure CharFormat where
  fontFamily : String
  fontSize : ℚ
  bold : Bool
  italic : Bool
  underline : Bool
  foreground : RGB
  background : Option RGB
  deriving DecidableEq

/-- Inline image reference: resource identifier plus stored pixel dimensions
(`QTextImageFormat` name/width/height). -/
structure ImageRef where
  name : String
  width : ℚ
  height : ℚ
  deriving DecidableEq

/-- A run is either a text fragment with an optional hyperlink target and a
character format, or an inline image reference (a Qt text fragment whose char
format `isImageFormat`). -/
inductive Run where
  | textRun (text : String) (link : Option String) (fmt : CharFormat)
  | imageRun (ref : ImageRef)
  deriving DecidableEq

/-- Paragraph alignment (`QTextBlockFormat.alignment`), four-way. -/
inductive Align where
  | left
  | center
  | right
  | justify
  deriving DecidableEq

/-- One paragraph: alignment plus the ordered runs it contains. -/
structure Block where
  align : Align
  runs : List Run
  deriving DecidableEq

/-- The Document Model: ordered blocks. -/
structure Doc where
  blocks : List Block
  deriving DecidableEq

/-- A binary resource blob (raw image bytes). -/
abbrev Blob := List Nat

/-- The live editor state: the document, the resource map
(`QTextDocument.addResource` / `resource`, keyed by image identifier), the
current file name and the modified flag. -/
structure EditorState where
  doc : Doc
  resources : List (String × Blob)
  currentFile : Option String
  isModified : Bool
  deriving DecidableEq

/-- Resource lookup (`document.resource(ImageResource, QUrl(name))`); `none`
models a missing or null image. -/
def lookupRes (m : List (String × Blob)) (k : String) : Option Blob :=
  (m.find? (fun p => p.1 = k)).map (fun p => p.2)

/-- Python-dict style insertion into an association list: overwrite the value
in place if the key is present, else append. -/
def dictInsert (m : List (String × Blob)) (k : String) (v : Blob) :
    List (String × Blob) :=
  if m.any (fun p => p.1 = k) then
    m.map (fun p => if p.1 = k then (k, v) else p)
  else
    m ++ [(k, v)]

/-- Keys of an association list. -/
def keysOf (m : List (String × Blob)) : List String := m.map (fun p => p.1)

/-! ## Markup codec

Modelled from the spec: the repository serializes the Document Model to its
markup snapshot string via Qt's `QTextDocument.toHtml` and parses it back via
`setHtml` (`save_as_html`, `open_file`, and the `html_content` field of the
`.olc` container); that serializer lives in Qt, not in `src/main.py`.
Following §4.4 of the spec it is modelled as a concrete markup string codec
that is a direct, lossless encoding of Blocks/Runs/CharFormat/images/
hyperlinks: strings are length-prefixed, counts are unary, every §3 attribute
is written out.  `markup_export` renders the string, `markup_import` parses
it back. -/

/-- Unary encoding of a count: `n` copies of `x` closed by `:`. -/
def encNat (n : Nat) : List Char :=
  List.replicate n 'x' ++ [':']

/-- Parse a unary count. -/
def parseNat : List Char → Option (Nat × List Char)
  | [] => none
  | c :: cs =>
    if c = 'x' then (parseNat cs).map (fun p => (p.1 + 1, p.2))
    else if c = ':' then some (0, cs)
    else none

/-- Length-prefixed raw string: the character count, then the characters
verbatim (so arbitrary text round-trips without escaping). -/
def encStr (s : String) : List Char :=
  encNat s.data.length ++ s.data

/-- Parse a length-prefixed string. -/
def parseStr (cs : List Char) : Option (String × List Char) :=
  match parseNat cs with
  | some (n, rest) =>
    if n ≤ rest.length then some (⟨rest.take n⟩, rest.drop n) else none
  | none => none

/-- Boolean attribute as one character. -/
def encBool (b : Bool) : List Char :=
  [if b then '1' else '0']

/-- Parse a boolean attribute. -/
def parseBool : List Char → Option (Bool × List Char)
  | [] => none
  | c :: cs =>
    if c = '1' then some (true, cs)
    else if c = '0' then some (false, cs)
    else none

/-- Optional attribute: `N` for absent, `S` followed by the payload. -/
def encOpt (enc : α → List Char) : Option α → List Char
  | none => ['N']
  | some a => 'S' :: enc a

/-- Parse an optional attribute. -/
def parseOpt (p : List Char → Option (α × List Char)) :
    List Char → Option (Option α × List Char)
  | [] => none
  | c :: cs =>
    if c = 'N' then some (none, cs)
    else if c = 'S' then (p cs).map (fun q => (some q.1, q.2))
    else none

/-- Signed integer: sign character then unary magnitude. -/
def encInt (i : Int) : List Char :=
  (if i < 0 then ['-'] else ['+']) ++ encNat i.natAbs

/-- Parse a signed integer. -/
def parseInt : List Char → Option (Int × List Char)
  | [] => none
  | c :: cs =>
    if c = '-' then (parseNat cs).map (fun p => (-(p.1 : Int), p.2))
    else if c = '+' then (parseNat cs).map (fun p => ((p.1 : Int), p.2))
    else none

/-- Rational attribute (font size in points, image dimensions in pixels):
numerator then denominator. -/
def encRat (q : ℚ) : List Char :=
  encInt q.num ++ encNat q.den

/-- Parse a rational attribute. -/
def parseRat (cs : List Char) : Option (ℚ × List Char) :=
  match parseInt cs with
  | some (n, rest) =>
    match parseNat rest with
    | some (d, rest') => some ((n : ℚ) / (d : ℚ), rest')
    | none => none
  | none => none

/-- Color attribute: the three components. -/
def encRGB (c : RGB) : List Char :=
  encNat c.r ++ encNat c.g ++ encNat c.b

/-- Parse a color attribute. -/
def parseRGB (cs : List Char) : Option (RGB × List Char) :=
  match parseNat cs with
  | some (r, cs) =>
    match parseNat cs with
    | some (g, cs) =>
      match parseNat cs with
      | some (b, cs) => some (⟨r, g, b⟩, cs)
      | none => none
    | none => none
  | none => none

/-- Character format: every §3 attribute in order. -/
def encFmt (f : CharFormat) : List Char :=
  encStr f.fontFamily ++ encRat f.fontSize ++ encBool f.bold ++
    encBool f.italic ++ encBool f.underline ++ encRGB f.foreground ++
    encOpt encRGB f.background

/-- Parse a character format. -/
def parseFmt (cs : List Char) : Option (CharFormat × List Char) :=
  match parseStr cs with
  | some (fam, cs) =>
    match parseRat cs with
    | some (size, cs) =>
      match parseBool cs with
      | some (bold, cs) =>
        match parseBool cs with
        | some (italic, cs) =>
          match parseBool cs with
          | some (underline, cs) =>
            match parseRGB cs with
            | some (fg, cs) =>
              match parseOpt parseRGB cs with
              | some (bg, cs) =>
                some (⟨fam, size, bold, italic, underline, fg, bg⟩, cs)
              | none => none
            | none => none
          | none => none
        | none => none
      | none => none
    | none => none
  | none => none

/-- Run element: tag `T` for a text run (text, optional hyperlink target,
format) or tag `I` for an image run (identifier, width, height). -/
def encRun : Run → List Char
  | .textRun t link fmt => 'T' :: (encStr t ++ encOpt encStr link ++ encFmt fmt)
  | .imageRun ref =>
    'I' :: (encStr ref.name ++ encRat ref.width ++ encRat ref.height)

/-- Parse a run element. -/
def parseRun : List Char → Option (Run × List Char)
  | [] => none
  | c :: cs =>
    if c = 'T' then
      match parseStr cs with
      | some (t, cs) =>
        match parseOpt parseStr cs with
        | some (link, cs) =>
          match parseFmt cs with
          | some (fmt, cs) => some (.textRun t link fmt, cs)
          | none => none
        | none => none
      | none => none
    else if c = 'I' then
      match parseStr cs with
      | some (name, cs) =>
        match parseRat cs with
        | some (w, cs) =>
          match parseRat cs with
          | some (h, cs) => some (.imageRun ⟨name, w, h⟩, cs)
          | none => none
        | none => none
      | none => none
    else none

/-- Alignment attribute as one character. -/
def encAlign : Align → List Char
  | .left => ['l']
  | .center => ['c']
  | .right => ['r']
  | .justify => ['j']

/-- Parse an alignment attribute. -/
def parseAlign : List Char → Option (Align × List Char)
  | [] => none
  | c :: cs =>
    if c = 'l' then some (.left, cs)
    else if c = 'c' then some (.center, cs)
    else if c = 'r' then some (.right, cs)
    else if c = 'j' then some (.justify, cs)
    else none

/-- Count-prefixed list of elements. -/
def encList (enc : α → List Char) (l : List α) : List Char :=
  encNat l.length ++ (l.map enc).flatten

/-- Parse exactly `n` elements with the element parser `p`. -/
def parseCount (p : List τ → Option (α × List τ)) :
    Nat → List τ → Option (List α × List τ)
  | 0, cs => some ([], cs)
  | n + 1, cs =>
    match p cs with
    | some (a, cs') => (parseCount p n cs').map (fun q => (a :: q.1, q.2))
    | none => none

/-- Parse a count-prefixed list. -/
def parseList (p : List Char → Option (α × List Char)) (cs : List Char) :
    Option (List α × List Char) :=
  match parseNat cs with
  | some (n, cs') => parseCount p n cs'
  | none => none

/-- Block element: alignment then the runs. -/
def encBlock (b : Block) : List Char :=
  encAlign b.align ++ encList encRun b.runs

/-- Parse a block element. -/
def parseBlock (cs : List Char) : Option (Block × List Char) :=
  match parseAlign cs with
  | some (a, cs) =>
    match parseList parseRun cs with
    | some (rs, cs) => some (⟨a, rs⟩, cs)
    | none => none
  | none => none

/-- Modelled from the spec: serialize the Document Model to the markup
snapshot string (the role Qt's `toHtml` plays in `save_as_html` and
`save_as_olc`), a direct lossless encoding of every §3 attribute. -/
def markup_export (d : Doc) : String :=
  ⟨encList encBlock d.blocks⟩

/-- Modelled from the spec: parse a markup snapshot string back into a
Document Model (the role Qt's `setHtml` plays in `open_file` and `load_olc`);
`none` on input that is not well-formed output of `markup_export`. -/
def markup_import (s : String) : Option Doc :=
  match parseList parseBlock s.data with
  | some (bs, []) => some ⟨bs⟩
  | _ => none

/-- Rendering a string that `markup_import` cannot parse leaves an empty
document (`setHtml` never fails; garbage input degrades to empty content). -/
def set_html (s : String) : Doc :=
  (markup_import s).getD ⟨[]⟩

/-! ## Container codec (`save_as_olc` / `load_olc`)

The `.olc` wire format: 4 magic bytes `OLC!`, a 4-byte IEEE-754 single
version field, an 8-byte little-endian unsigned payload length, then the
gzip-compressed pickle of the snapshot dict. -/

/-- Modelled serialization of a Python string inside the pickled snapshot:
character count, then the character codepoints. -/
def pEncStr (s : String) : List Nat :=
  s.data.length :: s.data.map Char.toNat

/-- Parse a serialized string. -/
def pParseStr : List Nat → Option (String × List Nat)
  | [] => none
  | n :: rest =>
    if n ≤ rest.length then some (⟨(rest.take n).map Char.ofNat⟩, rest.drop n)
    else none

/-- Serialized binary blob: length, then the raw bytes. -/
def pEncBlob (b : Blob) : List Nat :=
  b.length :: b

/-- Parse a serialized blob. -/
def pParseBlob : List Nat → Option (Blob × List Nat)
  | [] => none
  | n :: rest =>
    if n ≤ rest.length then some (rest.take n, rest.drop n) else none

/-- Serialized (identifier, blob) entry of the snapshot's image dict. -/
def pEncPair (p : String × Blob) : List Nat :=
  pEncStr p.1 ++ pEncBlob p.2

/-- Parse a serialized image-dict entry. -/
def pParsePair (bs : List Nat) : Option ((String × Blob) × List Nat) :=
  match pParseStr bs with
  | some (k, bs) =>
    match pParseBlob bs with
    | some (v, bs) => some ((k, v), bs)
    | none => none
  | none => none

/-- Serialized image dict: entry count, then the entries. -/
def pEncImages (l : List (String × Blob)) : List Nat :=
  l.length :: (l.map pEncPair).flatten

/-- Parse a serialized image dict. -/
def pParseImages (bs : List Nat) : Option (List (String × Blob) × List Nat) :=
  match bs with
  | [] => none
  | n :: rest => parseCount pParsePair n rest

/-- The Container Snapshot (the `olc_data` dict of `save_as_olc`):
application version string, application name, creation and modification
timestamps, the markup snapshot (`html_content`), the plain-text cache, the
image dict, and the word/character-count metadata. -/
structure OlcData where
  version : String
  application : String
  created : String
  modified : String
  html_content : String
  plain_text : String
  images : List (String × Blob)
  word_count : Nat
  char_count : Nat
  deriving DecidableEq

/-- Modelled serialization of the whole snapshot (`pickle.dumps`), field by
field in the dict's order. -/
def pEncSnapshot (d : OlcData) : List Nat :=
  pEncStr d.version ++ pEncStr d.application ++ pEncStr d.created ++
    pEncStr d.modified ++ pEncStr d.html_content ++ pEncStr d.plain_text ++
    pEncImages d.images ++ [d.word_count, d.char_count]

/-- Modelled deserialization of the snapshot (`pickle.loads`); `none` models
an unpickling failure.  Trailing bytes are tolerated, as `pickle.loads`
stops at its end marker. -/
def pParseSnapshot (bs : List Nat) : Option OlcData :=
  match pParseStr bs with
  | some (version, bs) =>
    match pParseStr bs with
    | some (application, bs) =>
      match pParseStr bs with
      | some (created, bs) =>
        match pParseStr bs with
        | some (modified, bs) =>
          match pParseStr bs with
          | some (html, bs) =>
            match pParseStr bs with
            | some (plain, bs) =>
              match pParseImages bs with
              | some (images, bs) =>
                match bs with
                | wc :: cc :: _ =>
                  some ⟨version, application, created, modified, html, plain,
                    images, wc, cc⟩
                | _ => none
              | none => none
            | none => none
          | none => none
        | none => none
      | none => none
    | none => none
  | none => none

/-- Modelled from the spec: `gzip.compress` is an external lossless coding;
the container logic under verification (framing, length check, versioning)
is independent of the particular coding, so it is modelled as the identity
on byte lists. -/
def gzip_compress (bs : List Nat) : List Nat := bs

/-- Modelled inverse coding (`gzip.decompress`). -/
def gzip_decompress (bs : List Nat) : List Nat := bs

/-- Exact value of an IEEE-754 single-precision bit pattern. -/
inductive F32 where
  | num (q : ℚ)
  | inf (neg : Bool)
  | nan
  deriving DecidableEq

/-- Value of a little-endian byte list. -/
def leNum (bytes : List Nat) : Nat :=
  bytes.foldr (fun b acc => b + 256 * acc) 0

/-- Little-endian fixed-width encoding of `n` on `k` bytes (the byte layout
`struct.pack` emits; the caller guarantees `n` fits). -/
def leBytes : Nat → Nat → List Nat
  | 0, _ => []
  | k + 1, n => n % 256 :: leBytes k (n / 256)

/-- Decode 4 little-endian bytes as an IEEE-754 single-precision float
(`struct.unpack('f', ...)`), exactly: sign, 8-bit exponent, 23-bit fraction;
exponent 255 is infinity or NaN, exponent 0 subnormal. -/
def decodeF32 (bytes : List Nat) : F32 :=
  let bits : Nat := leNum bytes
  let sign : Nat := bits / 2 ^ 31 % 2
  let ex : Nat := bits / 2 ^ 23 % 256
  let frac : Nat := bits % 2 ^ 23
  if ex = 255 then
    if frac = 0 then .inf (sign == 1) else .nan
  else
    let mag : ℚ :=
      if ex = 0 then (frac : ℚ) / 2 ^ 149
      else ((2 ^ 23 + frac : ℚ) * 2 ^ ex) / 2 ^ 150
    .num (if sign == 1 then -mag else mag)

/-- Python's `version > 1.0` on the decoded version field (IEEE comparison:
NaN compares false, +∞ compares true). -/
def f32GtOne : F32 → Bool
  | .num q => decide (1 < q)
  | .inf neg => !neg
  | .nan => false

/-- The four bytes `struct.pack('f', 1.0)` writes. -/
def f32OneBytes : List Nat := [0, 0, 128, 63]

/-- The four bytes `struct.pack('f', 2.0)` writes. -/
def f32TwoBytes : List Nat := [0, 0, 0, 64]

/-- The magic literal `OLC!`. -/
def olcMagic : List Nat := [79, 76, 67, 33]

/-- Container read failures (§7): magic mismatch, declared-length truncation,
or any other failure (short header fields, decompression, unpickling). -/
inductive OlcError where
  | malformedContainer
  | truncatedContainer
  | corruptPayload
  deriving DecidableEq

deriving instance DecidableEq for Except

/-- Outcome of the file phase of `load_olc`: the parsed snapshot and the
version-skew flag, or an error — plus how many bytes of the file were
consumed. -/
structure OlcReadOutcome where
  result : Except OlcError (OlcData × Bool)
  bytesRead : Nat
  deriving DecidableEq

/-- Plain text of one run (`toPlainText` view): the run's text, with the
object-replacement character standing for an inline image fragment. -/
def run_plain_text : Run → String
  | .textRun t _ _ => t
  | .imageRun _ => ⟨[Char.ofNat 65532]⟩

/-- Plain text of one paragraph: the runs' texts concatenated. -/
def block_plain_text (b : Block) : String :=
  String.join (b.runs.map run_plain_text)

/-- Plain text of the document (`self.text_edit.toPlainText()`): paragraphs
joined by newlines, every formatting attribute discarded. -/
def to_plain_text (d : Doc) : String :=
  String.intercalate "\n" (d.blocks.map block_plain_text)

/-- Word-count scan: walk the characters tracking whether a word is open. -/
def count_words_aux : List Char → Bool → Nat → Nat
  | [], _, acc => acc
  | c :: cs, inWord, acc =>
    if c.isWhitespace then count_words_aux cs false acc
    else if inWord then count_words_aux cs true acc
    else count_words_aux cs true (acc + 1)

/-- Python's `len(s.split())`: the number of maximal whitespace-free words. -/
def count_words (s : String) : Nat :=
  count_words_aux s.data false 0

/-- Inner fragment walk of the image-collection loop of `save_as_olc`: for
each image fragment whose resource resolves to a valid image, store its
bytes in the snapshot's image dict. -/
def collect_runs (res : List (String × Blob)) :
    List Run → List (String × Blob) → List (String × Blob)
  | [], acc => acc
  | r :: rs, acc =>
    collect_runs res rs
      (match r with
       | .imageRun ref =>
         match lookupRes res ref.name with
         | some blob => dictInsert acc ref.name blob
         | none => acc
       | .textRun _ _ _ => acc)

/-- Outer block walk of the image-collection loop of `save_as_olc`. -/
def collect_blocks (res : List (String × Blob)) :
    List Block → List (String × Blob) → List (String × Blob)
  | [], acc => acc
  | b :: bs, acc => collect_blocks res bs (collect_runs res b.runs acc)

/-- The image dict `save_as_olc` collects from the live document. -/
def collect_images (st : EditorState) : List (String × Blob) :=
  collect_blocks st.resources st.doc.blocks []

/-- The snapshot dict `save_as_olc` builds; `now` stands for
`datetime.now().isoformat()`. -/
def build_olc_data (now : String) (st : EditorState) : OlcData :=
  { version := "1.3.9",
    application := "OpenLautrec",
    created := now,
    modified := now,
    html_content := markup_export st.doc,
    plain_text := to_plain_text st.doc,
    images := collect_images st,
    word_count := count_words (to_plain_text st.doc),
    char_count := (to_plain_text st.doc).data.length }

/-- The bytes `save_as_olc` writes: magic, packed version 1.0, 8-byte
little-endian payload length, then the compressed pickled snapshot. -/
def save_as_olc (now : String) (st : EditorState) : List Nat :=
  let compressed := gzip_compress (pEncSnapshot (build_olc_data now st))
  olcMagic ++ f32OneBytes ++ leBytes 8 compressed.length ++ compressed

/-- The file phase of `load_olc`: read and check the 4 magic bytes (raising
the magic-mismatch `ValueError` reads nothing further); read and unpack the
4-byte version float and record whether `version > 1.0` (the forward-
compatibility warning); read and unpack the 8-byte length; read that many
payload bytes and fail with the truncation `ValueError` if fewer arrive;
decompress and unpickle.  A short version or length field makes
`struct.unpack` raise, which the generic handler reports as corruption. -/
def load_olc (file : List Nat) : OlcReadOutcome :=
  let magic := file.take 4
  if magic ≠ olcMagic then
    ⟨.error .malformedContainer, min 4 file.length⟩
  else
    let afterMagic := file.drop 4
    let versionBytes := afterMagic.take 4
    if versionBytes.length < 4 then
      ⟨.error .corruptPayload, file.length⟩
    else
      let skew := f32GtOne (decodeF32 versionBytes)
      let afterVersion := afterMagic.drop 4
      let sizeBytes := afterVersion.take 8
      if sizeBytes.length < 8 then
        ⟨.error .corruptPayload, file.length⟩
      else
        let dataSize := leNum sizeBytes
        let rest := afterVersion.drop 8
        let compressed := rest.take dataSize
        let consumed := 16 + min dataSize rest.length
        if compressed.length ≠ dataSize then
          ⟨.error .truncatedContainer, consumed⟩
        else
          match pParseSnapshot (gzip_decompress compressed) with
          | some data => ⟨.ok (data, skew), consumed⟩
          | none => ⟨.error .corruptPayload, consumed⟩

/-- The state phase of `load_olc`: on any error the live model is untouched;
on success every image of the snapshot is registered as a resource
(`addResource` into the existing map) and the model is rebuilt from the
snapshot's `html_content` markup via `setHtml` — the `plain_text` cache is
never consulted. -/
def load_olc_state (st : EditorState) (file : List Nat) : EditorState :=
  match (load_olc file).result with
  | .error _ => st
  | .ok (data, _) =>
    { st with
      resources := data.images.foldl (fun m p => dictInsert m p.1 p.2) st.resources,
      doc := set_html data.html_content }

/-- The image identifier a run references, if any. -/
def run_image_name : Run → Option String
  | .textRun _ _ _ => none
  | .imageRun ref => some ref.name

/-- The identifier `k` is referenced by some run of the document. -/
def references (d : Doc) (k : String) : Prop :=
  ∃ b ∈ d.blocks, ∃ r ∈ b.runs, run_image_name r = some k

instance referencesDecidable (d : Doc) (k : String) : Decidable (references d k) := by
  unfold references
  infer_instance

/-! ## Word-processor codec (`load_docx` / `save_as_docx` / `add_hyperlink`) -/

/-- Paragraph alignment as python-docx reports it (`WD_ALIGN_PARAGRAPH`);
`other` stands for any further enum member. -/
inductive DocxAlign where
  | center
  | right
  | justify
  | other
  deriving DecidableEq

/-- The foreground color python-docx reports for a run: an integer RGB, an
(r, g, b) triple, or a value whose decoding raises (covered by the bare
`except` around the color block); absent when the run carries none. -/
inductive DocxColorVal where
  | intVal (n : Nat)
  | triple (r g b : Nat)
  | malformed
  deriving DecidableEq

/-- One run as the python-docx boundary exposes it to `load_docx`. -/
structure DocxInRun where
  text : String
  fontName : Option String
  fontSizePt : Option ℚ
  bold : Bool
  italic : Bool
  underline : Bool
  color : Option DocxColorVal
  highlight : Option Nat
  deriving DecidableEq

/-- One paragraph as the python-docx boundary exposes it. -/
structure DocxInParagraph where
  alignment : Option DocxAlign
  runs : List DocxInRun
  deriving DecidableEq

/-- A parsed `.docx` document (`Document(filename)`). -/
structure DocxInDocument where
  paragraphs : List DocxInParagraph
  deriving DecidableEq

/-- The fixed 15-entry legacy highlight-color table of `load_docx`. -/
def highlight_colors : Nat → Option RGB
  | 1 => some ⟨255, 255, 0⟩
  | 2 => some ⟨0, 255, 0⟩
  | 3 => some ⟨0, 255, 255⟩
  | 4 => some ⟨255, 0, 255⟩
  | 5 => some ⟨0, 0, 255⟩
  | 6 => some ⟨255, 0, 0⟩
  | 7 => some ⟨0, 0, 128⟩
  | 8 => some ⟨0, 128, 128⟩
  | 9 => some ⟨0, 128, 0⟩
  | 10 => some ⟨128, 0, 128⟩
  | 11 => some ⟨128, 0, 0⟩
  | 12 => some ⟨128, 128, 0⟩
  | 13 => some ⟨128, 128, 128⟩
  | 14 => some ⟨192, 192, 192⟩
  | 15 => some ⟨0, 0, 0⟩
  | _ => none

/-- The default `QTextCharFormat` a fresh cursor inserts with: unset family,
the default point size, plain weight and style, black foreground, no
background. -/
def default_char_format : CharFormat :=
  { fontFamily := "", fontSize := 12, bold := false, italic := false,
    underline := false, foreground := ⟨0, 0, 0⟩, background := none }

/-- The `QTextCharFormat` the run loop of `load_docx` builds: name and size
copied when present and non-falsy; bold/italic/underline as booleans; the
foreground set from a decodable explicit color (a failing decode is skipped
by the bare `except`, the run text still inserted); the background set from
a known legacy highlight code. -/
def docx_run_format (r : DocxInRun) : CharFormat :=
  let f0 := default_char_format
  let f1 := match r.fontName with
    | some n => if n ≠ "" then { f0 with fontFamily := n } else f0
    | none => f0
  let f2 := match r.fontSizePt with
    | some s => if s ≠ 0 then { f1 with fontSize := s } else f1
    | none => f1
  let f3 := if r.bold then { f2 with bold := true } else f2
  let f4 := if r.italic then { f3 with italic := true } else f3
  let f5 := if r.underline then { f4 with underline := true } else f4
  let f6 := match r.color with
    | some (.intVal n) =>
      { f5 with foreground := ⟨n / 65536, n / 256 % 256, n % 256⟩ }
    | some (.triple x y z) => { f5 with foreground := ⟨x, y, z⟩ }
    | some .malformed => f5
    | none => f5
  match r.highlight with
  | some h =>
    match highlight_colors h with
    | some c => { f6 with background := some c }
    | none => f6
  | none => f6

/-- The block alignment `load_docx` sets: a falsy alignment leaves the
default (left); center/right/justify map across; any other explicit value
falls to left. -/
def docx_block_align : Option DocxAlign → Align
  | none => .left
  | some .center => .center
  | some .right => .right
  | some .justify => .justify
  | some .other => .left

/-- One parsed paragraph becomes one block whose runs carry the converted
formats (`cursor.insertText(run.text, fmt)`). -/
def docx_paragraph_block (p : DocxInParagraph) : Block :=
  ⟨docx_block_align p.alignment,
    p.runs.map (fun r => Run.textRun r.text none (docx_run_format r))⟩

/-- The document `load_docx` builds after `clear()`: one block per paragraph;
the final `insertText("\n")` leaves one trailing empty block carrying the
last block format set. -/
def docx_to_doc (d : DocxInDocument) : Doc :=
  ⟨d.paragraphs.map docx_paragraph_block ++
    [⟨(d.paragraphs.getLast?.map
        (fun p => docx_block_align p.alignment)).getD .left, []⟩]⟩

/-- `load_docx`: a missing python-docx module warns and returns before
touching the model; a failing `Document(filename)` parse (modelled `none`)
raises before `clear()` is reached, leaving the model untouched; otherwise
the model is replaced by the converted document. -/
def load_docx (docxAvailable : Bool) (st : EditorState)
    (parsed : Option DocxInDocument) : EditorState :=
  if !docxAvailable then st
  else
    match parsed with
    | none => st
    | some d => { st with doc := docx_to_doc d }

/-! ## Office-suite codec (`load_odt` / `save_as_odt`) -/

/-- A child node of an ODT paragraph/heading element as odfpy exposes it to
`_process_odt_element`: a raw text node, a styled span (style name plus
extracted text), or any other child element with its own children. -/
inductive OdtNode where
  | textNode (s : String)
  | span (stylename : Option String) (content : String)
  | other (children : List OdtNode)

/-- The recognized text-properties attributes of one ODT style, with the
string values `getAttribute` returns (`none` when absent). -/
structure OdtTextProps where
  fontweight : Option String
  fontstyle : Option String
  textunderlinestyle : Option String
  fontsize : Option String
  fontfamily : Option String
  color : Option String
  backgroundcolor : Option String
  deriving DecidableEq

/-- One child node of an ODT style element. -/
inductive OdtStyleChild where
  | textProperties (props : OdtTextProps)
  | otherChild
  deriving DecidableEq

/-- One ODT style object (automatic or named). -/
structure OdtStyle where
  children : List OdtStyleChild
  deriving DecidableEq

/-- A parsed `.odt` document (`load(filename)`): paragraph elements, heading
elements, and the name→style table built once per document. -/
structure OdtInDocument where
  paragraphs : List (List OdtNode)
  headings : List (List OdtNode)
  styles : List (String × OdtStyle)

/-- Leading digits folded to a number; `none` on any non-digit. -/
def digitsToNatAux : List Char → Nat → Option Nat
  | [], acc => some acc
  | c :: cs, acc =>
    if c.isDigit then digitsToNatAux cs (acc * 10 + (c.toNat - 48)) else none

/-- Python `float()` on the decimal numerals this codec meets: an integer
part with an optional fractional part; `none` models a raising parse. -/
def parse_decimal (s : String) : Option ℚ :=
  match s.splitOn "." with
  | [ip] =>
    if ip.data = [] then none
    else (digitsToNatAux ip.data 0).map (fun n => (n : ℚ))
  | [ip, fp] =>
    if ip.data = [] ∧ fp.data = [] then none
    else
      match digitsToNatAux ip.data 0, digitsToNatAux fp.data 0 with
      | some i, some f => some ((i : ℚ) + (f : ℚ) / 10 ^ fp.data.length)
      | _, _ => none
  | _ => none

/-- Value of one hexadecimal digit. -/
def hexVal (c : Char) : Option Nat :=
  if '0' ≤ c ∧ c ≤ '9' then some (c.toNat - 48)
  else if 'a' ≤ c ∧ c ≤ 'f' then some (c.toNat - 87)
  else if 'A' ≤ c ∧ c ≤ 'F' then some (c.toNat - 55)
  else none

/-- `QColor(str)` on a `#rrggbb` string; other shapes are modelled as
invalid colors. -/
def parse_hex_color (s : String) : Option RGB :=
  match s.data with
  | ['#', a1, a2, b1, b2, c1, c2] =>
    match hexVal a1, hexVal a2, hexVal b1, hexVal b2, hexVal c1, hexVal c2 with
    | some x1, some x2, some y1, some y2, some z1, some z2 =>
      some ⟨16 * x1 + x2, 16 * y1 + y2, 16 * z1 + z2⟩
    | _, _, _, _, _, _ => none
  | _ => none

/-- One text-properties child of `_apply_odt_style`: apply each recognized
attribute in the source's order, each wrapped in its own try/except, so an
absent or unparseable value is skipped without aborting the rest. -/
def apply_odt_props (fmt : CharFormat) (p : OdtTextProps) : CharFormat :=
  let f1 := if p.fontweight = some "bold" then { fmt with bold := true } else fmt
  let f2 := if p.fontstyle = some "italic" then { f1 with italic := true } else f1
  let f3 := match p.textunderlinestyle with
    | some u => if u ≠ "" ∧ u ≠ "none" then { f2 with underline := true } else f2
    | none => f2
  let f4 := match p.fontsize with
    | some sz =>
      if sz ≠ "" then
        match parse_decimal (sz.replace "pt" "") with
        | some q => { f3 with fontSize := q }
        | none => f3
      else f3
    | none => f3
  let f5 := match p.fontfamily with
    | some fam => if fam ≠ "" then { f4 with fontFamily := fam } else f4
    | none => f4
  let f6 := match p.color with
    | some cstr =>
      if cstr ≠ "" ∧ cstr.startsWith "#" then
        match parse_hex_color cstr with
        | some c => { f5 with foreground := c }
        | none => f5
      else f5
    | none => f5
  match p.backgroundcolor with
  | some bstr =>
    if bstr ≠ "" ∧ bstr.startsWith "#" then
      match parse_hex_color bstr with
      | some c => { f6 with background := some c }
      | none => f6
    else f6
  | none => f6

/-- `_apply_odt_style`: walk the style's children and apply every
text-properties child onto the same format. -/
def apply_odt_style (fmt : CharFormat) (style : OdtStyle) : CharFormat :=
  style.children.foldl
    (fun f c =>
      match c with
      | .textProperties p => apply_odt_props f p
      | .otherChild => f)
    fmt

/-- `_process_odt_element`: walk an element's children in order; a non-empty
text node is inserted with the default format, a span is inserted with the
format resolved by name from the style table (fresh default when the name is
absent or unknown), and any other element is walked recursively. -/
def process_odt_nodes (styles : List (String × OdtStyle)) :
    List OdtNode → List Run
  | [] => []
  | .textNode s :: rest =>
    (if s ≠ "" then [Run.textRun s none default_char_format] else []) ++
      process_odt_nodes styles rest
  | .span stylename content :: rest =>
    let fmt :=
      match stylename with
      | some sn =>
        match styles.find? (fun q => q.1 = sn) with
        | some q => apply_odt_style default_char_format q.2
        | none => default_char_format
      | none => default_char_format
    (if content ≠ "" then [Run.textRun content none fmt] else []) ++
      process_odt_nodes styles rest
  | .other children :: rest =>
    process_odt_nodes styles children ++ process_odt_nodes styles rest

/-- The document `load_odt` builds after `clear()`: paragraph elements then
heading elements, one block each (alignment is never set, so every block is
left-aligned), and the trailing empty block the final newline leaves. -/
def odt_to_doc (d : OdtInDocument) : Doc :=
  ⟨((d.paragraphs ++ d.headings).map
      (fun el => Block.mk .left (process_odt_nodes d.styles el))) ++
    [⟨.left, []⟩]⟩

/-- `load_odt`: a missing odfpy module warns and returns before touching the
model; a failing `load(filename)` (modelled `none`) raises before `clear()`
is reached, leaving the model untouched; otherwise the model is replaced. -/
def load_odt (odtAvailable : Bool) (st : EditorState)
    (parsed : Option OdtInDocument) : EditorState :=
  if !odtAvailable then st
  else
    match parsed with
    | none => st
    | some d => { st with doc := odt_to_doc d }

/-! ## Export side of the word-processor and office-suite codecs -/

/-- Formatting copied onto an exported docx run. -/
structure DocxOutProps where
  fontName : String
  sizePt : ℚ
  bold : Bool
  italic : Bool
  underline : Bool
  color : RGB
  deriving DecidableEq

/-- The `w:hyperlink` element `add_hyperlink` appends: the external
relationship URL, the literal color and underline values written into the
inner run's properties, and the visible text. -/
structure DocxHyperlinkElem where
  url : String
  colorVal : String
  underlineVal : String
  text : String
  deriving DecidableEq

/-- One item appended to an exported docx paragraph. -/
inductive DocxItem where
  | run (text : String) (props : DocxOutProps)
  | picture (widthIn heightIn : ℚ) (png : Blob)
  | hyperlink (h : DocxHyperlinkElem)
  deriving DecidableEq

/-- An exported docx paragraph: the mapped alignment plus the appended
items. -/
structure DocxOutParagraph where
  align : Align
  items : List DocxItem
  deriving DecidableEq

/-- `add_hyperlink`: register the external relationship and append a
`w:hyperlink` whose run carries `w:color val="0000FF"` and
`w:u val="single"` around the text. -/
def add_hyperlink (url text : String) : DocxItem :=
  .hyperlink ⟨url, "0000FF", "single", text⟩

/-- Run properties copied 1:1 from a fragment's char format (the plain-run
branches of `save_as_docx`). -/
def docx_props_of_fmt (fmt : CharFormat) : DocxOutProps :=
  { fontName := fmt.fontFamily, sizePt := fmt.fontSize, bold := fmt.bold,
    italic := fmt.italic, underline := fmt.underline, color := fmt.foreground }

/-- The fragment walk of `save_as_docx` for one run: an image fragment whose
resource resolves embeds a PNG picture sized at 96 px/inch and clamped to
the 6-inch page width (height rescaled by the same ratio); an anchor
fragment with a URL appends an ordinary run forced blue and underlined and
then the `w:hyperlink` element over the same text; anything else appends a
run copied 1:1 from the stored format. -/
def docx_export_run (res : List (String × Blob)) (r : Run) : List DocxItem :=
  match r with
  | .imageRun ref =>
    match lookupRes res ref.name with
    | some blob =>
      let widthInches := ref.width / 96
      let heightInches := ref.height / 96
      if widthInches > 6 then
        let ratio := 6 / widthInches
        [.picture 6 (heightInches * ratio) blob]
      else
        [.picture widthInches heightInches blob]
    | none => []
  | .textRun t link fmt =>
    match link with
    | some url =>
      if url ≠ "" then
        [.run t
          { docx_props_of_fmt fmt with
            underline := true
            color := ⟨0, 0, 255⟩ },
          add_hyperlink url t]
      else
        [.run t (docx_props_of_fmt fmt)]
    | none => [.run t (docx_props_of_fmt fmt)]

/-- One block becomes one exported docx paragraph: alignment mapped through
the same four-way table, fragments walked in order. -/
def docx_export_block (res : List (String × Blob)) (b : Block) :
    DocxOutParagraph :=
  ⟨b.align, (b.runs.map (docx_export_run res)).flatten⟩

/-- `save_as_docx`: with python-docx missing, warn and return before any
file is opened (`none` — nothing written); otherwise the built document,
one paragraph per block. -/
def save_as_docx (docxAvailable : Bool) (st : EditorState) :
    Option (List DocxOutParagraph) :=
  if !docxAvailable then none
  else some (st.doc.blocks.map (docx_export_block st.resources))

/-- Visible text of one exported docx item. -/
def docx_item_text : DocxItem → String
  | .run t _ => t
  | .picture _ _ _ => ""
  | .hyperlink h => h.text

/-- Visible text of a list of exported docx items, in order. -/
def docx_items_text : List DocxItem → String
  | [] => ""
  | i :: is => docx_item_text i ++ docx_items_text is

/-- The text-properties attributes written on an exported ODT style (the
`setAttribute` calls of `save_as_odt`); the `fontsize` value is the point
size (emitted with a `pt` suffix in the file). -/
structure OdtOutProps where
  color : Option String
  textunderlinestyle : Option String
  textunderlinecolor : Option String
  fontsize : Option ℚ
  fontfamily : Option String
  fontweight : Option String
  fontstyle : Option String
  deriving DecidableEq

/-- One item appended to an exported ODT paragraph. -/
inductive OdtItem where
  | frame (widthIn heightIn : ℚ) (href : String)
  | link (url : String) (props : OdtOutProps) (text : String)
  | span (props : OdtOutProps) (text : String)
  deriving DecidableEq

/-- Lower-case hexadecimal digit. -/
def hexDigit (n : Nat) : Char :=
  if n < 10 then Char.ofNat (48 + n) else Char.ofNat (87 + n)

/-- Two-digit lower-case hex of one byte (`%02x`). -/
def hex2 (n : Nat) : String :=
  ⟨[hexDigit (n / 16), hexDigit (n % 16)]⟩

/-- The `#rrggbb` string the ODT exporter formats from a stored color. -/
def rgb_hex (c : RGB) : String :=
  "#" ++ hex2 c.r ++ hex2 c.g ++ hex2 c.b

/-- Style written for a hyperlink span: color and underline forced to blue
and solid (underline color blue as well), size and family copied, weight and
style only when set. -/
def odt_link_props (fmt : CharFormat) : OdtOutProps :=
  { color := some "#0000FF",
    textunderlinestyle := some "solid",
    textunderlinecolor := some "#0000FF",
    fontsize := some fmt.fontSize,
    fontfamily := some fmt.fontFamily,
    fontweight := if fmt.bold then some "bold" else none,
    fontstyle := if fmt.italic then some "italic" else none }

/-- Style written for an ordinary span: weight, style and underline when
set, size and family, and the stored foreground color in hex. -/
def odt_span_props (fmt : CharFormat) : OdtOutProps :=
  { color := some (rgb_hex fmt.foreground),
    textunderlinestyle := if fmt.underline then some "solid" else none,
    textunderlinecolor := none,
    fontsize := some fmt.fontSize,
    fontfamily := some fmt.fontFamily,
    fontweight := if fmt.bold then some "bold" else none,
    fontstyle := if fmt.italic then some "italic" else none }

/-- The fragment walk of `save_as_odt` for one run, threading the picture
counter: an image fragment whose resource resolves embeds a frame whose
size is the stored pixel size at 96 px/inch — with no page-width clamp; an
anchor fragment with a URL emits a link wrapping a span styled blue with a
solid underline; anything else emits a span with the stored format. -/
def odt_export_run (res : List (String × Blob)) (counter : Nat) (r : Run) :
    Nat × List OdtItem :=
  match r with
  | .imageRun ref =>
    match lookupRes res ref.name with
    | some _ =>
      (counter + 1,
        [.frame (ref.width / 96) (ref.height / 96)
          ("Pictures/image_" ++ toString (counter + 1) ++ ".png")])
    | none => (counter, [])
  | .textRun t link fmt =>
    match link with
    | some url =>
      if url ≠ "" then (counter, [.link url (odt_link_props fmt) t])
      else (counter, [.span (odt_span_props fmt) t])
    | none => (counter, [.span (odt_span_props fmt) t])

/-- The fragment walk over one block's runs. -/
def odt_export_runs (res : List (String × Blob)) (counter : Nat) :
    List Run → Nat × List OdtItem
  | [] => (counter, [])
  | r :: rest =>
    let p1 := odt_export_run res counter r
    let p2 := odt_export_runs res p1.1 rest
    (p2.1, p1.2 ++ p2.2)

/-- The block walk of `save_as_odt`: one `P` element per block. -/
def odt_export_blocks (res : List (String × Blob)) (counter : Nat) :
    List Block → Nat × List (List OdtItem)
  | [] => (counter, [])
  | b :: rest =>
    let p1 := odt_export_runs res counter b.runs
    let p2 := odt_export_blocks res p1.1 rest
    (p2.1, p1.2 :: p2.2)

/-- `save_as_odt`: with odfpy missing, warn and return before any file is
opened (`none`); otherwise the built document, one paragraph per block. -/
def save_as_odt (odtAvailable : Bool) (st : EditorState) :
    Option (List (List OdtItem)) :=
  if !odtAvailable then none
  else some (odt_export_blocks st.resources 0 st.doc.blocks).2

/-! ## Save dispatcher (`save_to_file`) -/

/-- What a completed save wrote to the filesystem. -/
inductive WriteTarget where
  | olcFile (bytes : List Nat)
  | docxFile (paras : List DocxOutParagraph)
  | odtFile (paras : List (List OdtItem))
  | htmlFile (markup : String)
  | txtFile (text : String)
  deriving DecidableEq

/-- Python's `str.endswith` on the filename. -/
def ends_with (s pat : String) : Bool :=
  decide (pat.data.length ≤ s.data.length) &&
    decide (s.data.drop (s.data.length - pat.data.length) = pat.data)

/-- Result of `save_to_file`: what (if anything) reached the filesystem, the
boolean the method returns, and the updated editor state. -/
structure SaveResult where
  written : Option WriteTarget
  success : Bool
  state : EditorState
  deriving DecidableEq

/-- `save_to_file`: dispatch on the filename suffix.  Every format-specific
save catches its own exceptions, and the availability guards simply return,
so the `try` body never raises: the method always falls through to set
`current_file`, clear `is_modified`, show `Fichier enregistré` and return
`True` — even when the dispatched save wrote nothing. -/
def save_to_file (docxAvailable odtAvailable : Bool) (now : String)
    (st : EditorState) (filename : String) : SaveResult :=
  let written : Option WriteTarget :=
    if ends_with filename ".olc" then some (.olcFile (save_as_olc now st))
    else if ends_with filename ".docx" then
      (save_as_docx docxAvailable st).map .docxFile
    else if ends_with filename ".odt" then
      (save_as_odt odtAvailable st).map .odtFile
    else if ends_with filename ".html" then
      some (.htmlFile (markup_export st.doc))
    else some (.txtFile (to_plain_text st.doc))
  { written := written,
    success := true,
    state := { st with currentFile := some filename, isModified := false } }

/-! ## Supporting definitions for the claims -/

/-- The model a snapshot reconstructs: `setHtml` of its `html_content`
field only. -/
def doc_of_snapshot (d : OlcData) : Doc :=
  set_html d.html_content

/-- One run's image reference (if any) resolves in the given resource map. -/
def run_resolves (res : List (String × Blob)) (r : Run) : Bool :=
  match run_image_name r with
  | some a => (lookupRes res a).isSome
  | none => true

/-- Every image run's identifier resolves in the Resource Store (the §3
`ImageRef` invariant), stated decidably over the document's runs. -/
def resources_resolve (st : EditorState) : Prop :=
  ∀ b ∈ st.doc.blocks, ∀ r ∈ b.runs, run_resolves st.resources r = true

instance resourcesResolveDecidable (st : EditorState) :
    Decidable (resources_resolve st) := by
  unfold resources_resolve
  infer_instance

/-- The exported docx item renders its text blue (`RGB 0 0 255` on an
ordinary run, `w:color val="0000FF"` inside the hyperlink element) and
underlined. -/
def docx_item_blue_underlined : DocxItem → Prop
  | .run _ p => p.color = ⟨0, 0, 255⟩ ∧ p.underline = true
  | .picture _ _ _ => True
  | .hyperlink hl => hl.colorVal = "0000FF" ∧ hl.underlineVal = "single"

/-- The exported ODT item styles its text blue with a solid underline. -/
def odt_item_blue_underlined : OdtItem → Prop
  | .frame _ _ _ => True
  | .link _ p _ => p.color = some "#0000FF" ∧ p.textunderlinestyle = some "solid"
  | .span p _ => p.color = some "#0000FF" ∧ p.textunderlinestyle = some "solid"

/-- An empty editor state. -/
def emptyState : EditorState :=
  ⟨⟨[]⟩, [], none, false⟩

/-- A small concrete editor state used by witnesses: one centered block with
a text run and an image run whose resource is present. -/
def sampleState : EditorState :=
  ⟨⟨[⟨.center,
      [Run.textRun "hi" none default_char_format,
        Run.imageRun ⟨"img1", 10, 5⟩]⟩]⟩,
    [("img1", [1, 2, 3])], none, false⟩

/-- A small concrete snapshot used by witnesses. -/
def sampleOlcData : OlcData :=
  ⟨"1.3.9", "OpenLautrec", "t", "t", "m", "p", [("a", [7])], 1, 1⟩

/-- A 1000 px wide, 500 px tall image run with its resource present, for the
export-clamp claims. -/
def wideImageState : EditorState :=
  ⟨⟨[⟨.left, [Run.imageRun ⟨"big", 1000, 500⟩]⟩]⟩, [("big", [9])], none, false⟩

/-! ## Markup codec round-trip lemmas -/

/-- A string is its character list. -/
theorem string_mk_data (s : String) : String.mk s.data = s := by
  cases s
  rfl

/-- Unary counts round-trip. -/
theorem parseNat_encNat (n : Nat) (r : List Char) :
    parseNat (encNat n ++ r) = some (n, r) := by
  induction n with
  | zero => simp [encNat, parseNat]
  | succ k ih =>
    have h : encNat (k + 1) ++ r = 'x' :: (encNat k ++ r) := by
      simp [encNat, List.replicate_succ]
    rw [h]
    simp [parseNat, ih]

/-- Length-prefixed strings round-trip. -/
theorem parseStr_encStr (s : String) (r : List Char) :
    parseStr (encStr s ++ r) = some (s, r) := by
  simp only [encStr, List.append_assoc, parseStr, parseNat_encNat]
  simp [List.take_left, List.drop_left, Nat.le_add_right, string_mk_data]

/-- Boolean attributes round-trip. -/
theorem parseBool_encBool (b : Bool) (r : List Char) :
    parseBool (encBool b ++ r) = some (b, r) := by
  cases b <;> simp [encBool, parseBool]

/-- Optional attributes round-trip, given that the payload does. -/
theorem parseOpt_encOpt (p : List Char → Option (α × List Char))
    (enc : α → List Char)
    (hp : ∀ a r, p (enc a ++ r) = some (a, r)) (o : Option α) (r : List Char) :
    parseOpt p (encOpt enc o ++ r) = some (o, r) := by
  cases o with
  | none => simp [encOpt, parseOpt]
  | some a => simp [encOpt, parseOpt, hp]

/-- Signed integers round-trip. -/
theorem parseInt_encInt (i : Int) (r : List Char) :
    parseInt (encInt i ++ r) = some (i, r) := by
  by_cases h : i < 0
  · have e : -|i| = i := by rw [abs_of_neg h, neg_neg]
    simp only [encInt, if_pos h, List.cons_append, List.nil_append]
    simp [parseInt, parseNat_encNat, e]
  · have e : |i| = i := abs_of_nonneg (le_of_not_lt h)
    simp only [encInt, if_neg h, List.cons_append, List.nil_append]
    simp [parseInt, parseNat_encNat, e]

/-- Rational attributes round-trip. -/
theorem parseRat_encRat (q : ℚ) (r : List Char) :
    parseRat (encRat q ++ r) = some (q, r) := by
  simp only [encRat, List.append_assoc, parseRat, parseInt_encInt, parseNat_encNat]
  simp [Rat.num_div_den]

/-- Color attributes round-trip. -/
theorem parseRGB_encRGB (c : RGB) (r : List Char) :
    parseRGB (encRGB c ++ r) = some (c, r) := by
  obtain ⟨x, y, z⟩ := c
  simp only [encRGB, List.append_assoc, parseRGB, parseNat_encNat]

/-- Character formats round-trip. -/
theorem parseFmt_encFmt (f : CharFormat) (r : List Char) :
    parseFmt (encFmt f ++ r) = some (f, r) := by
  obtain ⟨fam, size, bold, italic, underline, fg, bg⟩ := f
  simp only [encFmt, List.append_assoc, parseFmt, parseStr_encStr, parseRat_encRat,
    parseBool_encBool, parseRGB_encRGB, parseOpt_encOpt _ _ parseRGB_encRGB]

/-- Run elements round-trip. -/
theorem parseRun_encRun (u : Run) (r : List Char) :
    parseRun (encRun u ++ r) = some (u, r) := by
  cases u with
  | textRun t link fmt =>
    simp only [encRun, List.cons_append, List.append_assoc, parseRun,
      parseStr_encStr, parseOpt_encOpt _ _ parseStr_encStr, parseFmt_encFmt]
    simp
  | imageRun ref =>
    obtain ⟨name, w, h⟩ := ref
    simp only [encRun, List.cons_append, List.append_assoc, parseRun,
      parseStr_encStr, parseRat_encRat]
    simp

/-- Alignment attributes round-trip. -/
theorem parseAlign_encAlign (a : Align) (r : List Char) :
    parseAlign (encAlign a ++ r) = some (a, r) := by
  cases a <;> simp [encAlign, parseAlign]

/-- Parsing a known element count recovers the encoded list. -/
theorem parseCount_encMap (p : List τ → Option (α × List τ))
    (enc : α → List τ)
    (hp : ∀ a r, p (enc a ++ r) = some (a, r)) (l : List α) (r : List τ) :
    parseCount p l.length ((l.map enc).flatten ++ r) = some (l, r) := by
  induction l with
  | nil => simp [parseCount]
  | cons a l ih => simp [parseCount, List.append_assoc, hp, ih]

/-- Count-prefixed lists round-trip. -/
theorem parseList_encList (p : List Char → Option (α × List Char))
    (enc : α → List Char)
    (hp : ∀ a r, p (enc a ++ r) = some (a, r)) (l : List α) (r : List Char) :
    parseList p (encList enc l ++ r) = some (l, r) := by
  simp only [encList, List.append_assoc, parseList, parseNat_encNat]
  exact parseCount_encMap p enc hp l r

/-- Block elements round-trip. -/
theorem parseBlock_encBlock (b : Block) (r : List Char) :
    parseBlock (encBlock b ++ r) = some (b, r) := by
  obtain ⟨a, rs⟩ := b
  simp only [encBlock, List.append_assoc, parseBlock, parseAlign_encAlign,
    parseList_encList parseRun encRun parseRun_encRun]

/-- The markup codec round-trips every document exactly. -/
theorem markup_import_export (d : Doc) : markup_import (markup_export d) = some d := by
  obtain ⟨bs⟩ := d
  have h := parseList_encList parseBlock encBlock parseBlock_encBlock bs []
  rw [List.append_nil] at h
  simp [markup_import, markup_export, h]

/-- Rendering the exported markup reproduces the document. -/
theorem set_html_markup_export (d : Doc) : set_html (markup_export d) = d := by
  simp [set_html, markup_import_export]

/-! ## Container codec round-trip lemmas -/

/-- Serialized strings round-trip through the payload codec. -/
theorem pParseStr_pEncStr (s : String) (r : List Nat) :
    pParseStr (pEncStr s ++ r) = some (s, r) := by
  simp only [pEncStr, List.cons_append, pParseStr]
  have hlen : (s.data.map Char.toNat).length = s.data.length := by simp
  rw [if_pos]
  · rw [List.take_left' hlen, List.drop_left' hlen]
    have hco : List.map (Char.ofNat ∘ Char.toNat) s.data = s.data := by
      rw [show (Char.ofNat ∘ Char.toNat) = id from funext fun c => Char.ofNat_toNat c,
        List.map_id]
    simp only [List.map_map, hco, string_mk_data]
  · simp

/-- Serialized blobs round-trip through the payload codec. -/
theorem pParseBlob_pEncBlob (b : Blob) (r : List Nat) :
    pParseBlob (pEncBlob b ++ r) = some (b, r) := by
  simp only [pEncBlob, List.cons_append, pParseBlob]
  rw [if_pos (by simp)]
  rw [List.take_left, List.drop_left]

/-- Serialized image-dict entries round-trip. -/
theorem pParsePair_pEncPair (p : String × Blob) (r : List Nat) :
    pParsePair (pEncPair p ++ r) = some (p, r) := by
  obtain ⟨k, v⟩ := p
  simp only [pEncPair, List.append_assoc, pParsePair, pParseStr_pEncStr,
    pParseBlob_pEncBlob]

/-- Serialized image dicts round-trip. -/
theorem pParseImages_pEncImages (l : List (String × Blob)) (r : List Nat) :
    pParseImages (pEncImages l ++ r) = some (l, r) := by
  simp only [pEncImages, List.cons_append, pParseImages]
  exact parseCount_encMap pParsePair pEncPair pParsePair_pEncPair l r

/-- Serialized snapshots round-trip through the payload codec. -/
theorem pParseSnapshot_pEncSnapshot (d : OlcData) (r : List Nat) :
    pParseSnapshot (pEncSnapshot d ++ r) = some d := by
  obtain ⟨version, application, created, modified, html, plain, images, wc, cc⟩ := d
  simp only [pEncSnapshot, List.append_assoc, List.cons_append, List.nil_append,
    pParseSnapshot, pParseStr_pEncStr, pParseImages_pEncImages]

/-- Every fixed-width little-endian encoding has the fixed width. -/
theorem leBytes_length (k n : Nat) : (leBytes k n).length = k := by
  induction k generalizing n with
  | zero => rfl
  | succ m ih => simp [leBytes, ih]

/-- Decoding a fixed-width little-endian encoding recovers the value modulo
the width. -/
theorem leNum_leBytes (k n : Nat) : leNum (leBytes k n) = n % 256 ^ k := by
  induction k generalizing n with
  | zero => simp [leBytes, leNum, Nat.mod_one]
  | succ m ih =>
    have h1 : leNum (n % 256 :: leBytes m (n / 256)) =
        n % 256 + 256 * leNum (leBytes m (n / 256)) := rfl
    rw [leBytes, h1, ih]
    rw [Nat.pow_succ, Nat.mul_comm (256 ^ m) 256, Nat.mod_mul]

/-- Reading a container file with a well-formed frame: the magic matches, the
4 version bytes decode to `v`, the declared length is exactly the payload
length (below `2^64`), so the read consumes the whole frame and unpickles the
decompressed payload, reporting version skew exactly when `v > 1.0`. -/
theorem load_olc_wellformed (vb payload : List Nat) (h4 : vb.length = 4)
    (hlen : payload.length < 2 ^ 64) :
    load_olc (olcMagic ++ vb ++ leBytes 8 payload.length ++ payload) =
      ⟨match pParseSnapshot (gzip_decompress payload) with
       | some data => .ok (data, f32GtOne (decodeF32 vb))
       | none => .error .corruptPayload,
       16 + payload.length⟩ := by
  have hm : olcMagic.length = 4 := rfl
  have hlb : (leBytes 8 payload.length).length = 8 := leBytes_length 8 _
  have hmod : leNum (leBytes 8 payload.length) = payload.length := by
    rw [leNum_leBytes]
    have h2 : (256 : Nat) ^ 8 = 2 ^ 64 := by norm_num
    rw [h2]
    exact Nat.mod_eq_of_lt hlen
  simp only [load_olc, List.append_assoc, List.take_left' hm, List.drop_left' hm,
    List.take_left' h4, List.drop_left' h4, List.take_left' hlb,
    List.drop_left' hlb, hmod, h4, hlb, List.take_length, min_self]
  simp
  cases pParseSnapshot (gzip_decompress payload) <;> rfl

/-! ## Image-dict key lemmas -/

/-- Dict insertion adds exactly the inserted key to the key set. -/
theorem mem_keysOf_dictInsert (m : List (String × Blob)) (k : String) (v : Blob)
    (a : String) :
    a ∈ keysOf (dictInsert m k v) ↔ a ∈ keysOf m ∨ a = k := by
  unfold dictInsert keysOf
  by_cases h : m.any (fun p => p.1 = k)
  · rw [if_pos h]
    rw [List.map_map]
    have hmap : List.map ((fun p : String × Blob => p.1) ∘
        fun p => if p.1 = k then (k, v) else p) m =
        List.map (fun p : String × Blob => p.1) m := by
      apply List.map_congr_left
      intro p _
      by_cases hp : p.1 = k <;> simp [Function.comp, hp]
    rw [hmap]
    constructor
    · exact Or.inl
    · rintro (h1 | rfl)
      · exact h1
      · rcases List.any_eq_true.mp h with ⟨p, hp, he⟩
        have hpk : p.1 = a := by simpa using he
        exact hpk ▸ List.mem_map_of_mem _ hp
  · rw [if_neg h]
    simp [List.mem_append]

/-- Key set of the fragment walk of `save_as_olc`: the accumulated keys plus
the names of image runs whose resource resolves. -/
theorem mem_keysOf_collect_runs (res : List (String × Blob)) (rs : List Run)
    (acc : List (String × Blob)) (a : String) :
    a ∈ keysOf (collect_runs res rs acc) ↔
      a ∈ keysOf acc ∨
        ∃ r ∈ rs, run_image_name r = some a ∧ (lookupRes res a).isSome := by
  induction rs generalizing acc with
  | nil => simp [collect_runs]
  | cons r rs ih =>
    cases r with
    | textRun t link fmt =>
      simp [collect_runs, ih, run_image_name]
    | imageRun ref =>
      by_cases ha : ref.name = a
      · subst ha
        cases hres : lookupRes res ref.name with
        | none =>
          simp [collect_runs, hres, ih, run_image_name]
        | some blob =>
          simp [collect_runs, hres, ih, mem_keysOf_dictInsert, run_image_name]
      · cases hres : lookupRes res ref.name with
        | none =>
          simp [collect_runs, hres, ih, run_image_name, ha]
        | some blob =>
          simp [collect_runs, hres, ih, mem_keysOf_dictInsert, run_image_name, ha]
          constructor
          · rintro ((h1 | h1) | h2)
            · exact Or.inl h1
            · exact absurd h1.symm ha
            · exact Or.inr h2
          · rintro (h1 | h2)
            · exact Or.inl (Or.inl h1)
            · exact Or.inr h2

/-- Key set of the block walk of `save_as_olc`. -/
theorem mem_keysOf_collect_blocks (res : List (String × Blob)) (bs : List Block)
    (acc : List (String × Blob)) (a : String) :
    a ∈ keysOf (collect_blocks res bs acc) ↔
      a ∈ keysOf acc ∨
        ∃ b ∈ bs, ∃ r ∈ b.runs, run_image_name r = some a ∧
          (lookupRes res a).isSome := by
  induction bs generalizing acc with
  | nil => simp [collect_blocks]
  | cons b bs ih =>
    simp [collect_blocks, ih, mem_keysOf_collect_runs, or_assoc]

/-- The image dict `save_as_olc` collects holds exactly the identifiers
referenced by some run, provided every referenced identifier resolves in the
Resource Store (the §3 `ImageRef` invariant). -/
theorem mem_keysOf_collect_images (st : EditorState) (a : String)
    (hwf : ∀ k, references st.doc k → (lookupRes st.resources k).isSome) :
    a ∈ keysOf (collect_images st) ↔ references st.doc a := by
  unfold collect_images references
  rw [mem_keysOf_collect_blocks]
  simp [keysOf]
  constructor
  · rintro ⟨b, hb, r, hr, hname, _⟩
    exact ⟨b, hb, r, hr, hname⟩
  · rintro ⟨b, hb, r, hr, hname⟩
    exact ⟨b, hb, r, hr, hname, hwf a ⟨b, hb, r, hr, hname⟩⟩

/-! ## Helper lemmas for the claims -/

/-- Appending the empty string is the identity. -/
theorem string_append_empty (s : String) : s ++ "" = s := by
  cases s with
  | mk l =>
    show String.mk (l ++ []) = String.mk l
    rw [List.append_nil]

/-- The decidable per-run invariant implies the resource resolution the
image-collection lemma needs. -/
theorem resources_resolve_spec (st : EditorState) (h : resources_resolve st)
    (a : String) (ha : references st.doc a) :
    (lookupRes st.resources a).isSome := by
  rcases ha with ⟨b, hb, r, hr, hname⟩
  have h2 := h b hb r hr
  unfold run_resolves at h2
  rw [hname] at h2
  exact h2

/-! ## Claims -/

/-- C2: for every Document Model `D`, `markup_import (markup_export D)`
reproduces `D` exactly — export followed by import is the identity on the
Document Model for every §3 Block/Run attribute (alignment, text,
bold/italic/underline, font family and size, both colors, hyperlink target,
image identifier and dimensions). -/
theorem C2_markup_round_trip (d : Doc) :
    markup_import (markup_export d) = some d :=
  markup_import_export d

/-- C3: reading a file whose first 4 bytes are not the magic `OLC!` fails
with the malformed-container error, reads nothing past those 4 bytes, and
returns no partial result — the Document Model is untouched. -/
theorem C3_bad_magic_fails (st : EditorState) (file : List Nat)
    (h : file.take 4 ≠ olcMagic) :
    (load_olc file).result = .error .malformedContainer ∧
      (load_olc file).bytesRead = min 4 file.length ∧
      load_olc_state st file = st := by
  have h1 : load_olc file = ⟨.error .malformedContainer, min 4 file.length⟩ := by
    simp [load_olc, h]
  refine ⟨by rw [h1], by rw [h1], ?_⟩
  unfold load_olc_state
  rw [h1]

/-- C3 witness at a concrete non-magic file. -/
theorem C3_bad_magic_fails_witness :
    ([0, 1, 2, 3, 4, 5] : List Nat).take 4 ≠ olcMagic ∧
      ((load_olc [0, 1, 2, 3, 4, 5]).result = .error .malformedContainer ∧
        (load_olc [0, 1, 2, 3, 4, 5]).bytesRead =
          min 4 ([0, 1, 2, 3, 4, 5] : List Nat).length ∧
        load_olc_state emptyState [0, 1, 2, 3, 4, 5] = emptyState) :=
  ⟨by decide, C3_bad_magic_fails emptyState [0, 1, 2, 3, 4, 5] (by decide)⟩

/-- C4: a declared 8-byte payload length larger than the bytes actually
remaining makes the container read fail with the truncated-container error
rather than silently accepting a short read. -/
theorem C4_truncated_fails (vb rest : List Nat) (n : Nat) (h4 : vb.length = 4)
    (hn : n < 2 ^ 64) (hshort : rest.length < n) :
    (load_olc (olcMagic ++ vb ++ leBytes 8 n ++ rest)).result =
      .error .truncatedContainer := by
  have hm : olcMagic.length = 4 := rfl
  have hlb : (leBytes 8 n).length = 8 := leBytes_length 8 n
  have hmod : leNum (leBytes 8 n) = n := by
    rw [leNum_leBytes]
    have h2 : (256 : Nat) ^ 8 = 2 ^ 64 := by norm_num
    rw [h2]
    exact Nat.mod_eq_of_lt hn
  have hne : (rest.take n).length ≠ n := by
    rw [List.length_take]
    omega
  simp only [load_olc, List.append_assoc, List.take_left' hm, List.drop_left' hm,
    List.take_left' h4, List.drop_left' h4, List.take_left' hlb,
    List.drop_left' hlb, hmod, h4, hlb]
  simp [hne, hshort]

/-- C4 witness: a frame declaring 5 payload bytes over a 2-byte rest. -/
theorem C4_truncated_fails_witness :
    (f32OneBytes.length = 4 ∧ 5 < 2 ^ 64 ∧ ([1, 2] : List Nat).length < 5) ∧
      (load_olc (olcMagic ++ f32OneBytes ++ leBytes 8 5 ++ [1, 2])).result =
        .error .truncatedContainer :=
  ⟨⟨by decide, by decide, by decide⟩,
    C4_truncated_fails f32OneBytes [1, 2] 5 (by decide) (by decide) (by decide)⟩

/-- C5: a well-formed container whose version field decodes above the
highest supported version 1.0 (for instance 2.0) loads successfully and
surfaces the version-skew warning — the read never fails solely because of
the newer version. -/
theorem C5_version_skew_warns (d : OlcData) (vb : List Nat)
    (h4 : vb.length = 4) (hgt : f32GtOne (decodeF32 vb) = true)
    (hlen : (gzip_compress (pEncSnapshot d)).length < 2 ^ 64) :
    (load_olc (olcMagic ++ vb ++
        leBytes 8 (gzip_compress (pEncSnapshot d)).length ++
        gzip_compress (pEncSnapshot d))).result = .ok (d, true) := by
  have hp : pParseSnapshot (pEncSnapshot d) = some d := by
    have h := pParseSnapshot_pEncSnapshot d []
    rwa [List.append_nil] at h
  rw [load_olc_wellformed vb _ h4 hlen]
  simp [gzip_decompress, gzip_compress, hp, hgt]

/-- C5 witness: version 2.0 over a concrete snapshot. -/
theorem C5_version_skew_warns_witness :
    (f32TwoBytes.length = 4 ∧
      f32GtOne (decodeF32 f32TwoBytes) = true ∧
      (gzip_compress (pEncSnapshot sampleOlcData)).length < 2 ^ 64) ∧
      (load_olc (olcMagic ++ f32TwoBytes ++
          leBytes 8 (gzip_compress (pEncSnapshot sampleOlcData)).length ++
          gzip_compress (pEncSnapshot sampleOlcData))).result =
        .ok (sampleOlcData, true) :=
  ⟨⟨by decide, by norm_num [f32GtOne, decodeF32, leNum, f32TwoBytes], by decide⟩,
    C5_version_skew_warns sampleOlcData f32TwoBytes (by decide)
      (by norm_num [f32GtOne, decodeF32, leNum, f32TwoBytes]) (by decide)⟩

/-- C6: a failing load — word-processor, office-suite, or container — leaves
the previously loaded Document Model untouched: the unavailable-module
guards return before touching the model, a parse failure raises before
`clear()` is reached, and an erroring container read applies nothing. -/
theorem C6_failed_load_untouched (st : EditorState)
    (pd : Option DocxInDocument) (po : Option OdtInDocument)
    (file : List Nat) (e : OlcError)
    (he : (load_olc file).result = .error e) :
    load_docx false st pd = st ∧ load_docx true st none = st ∧
      load_odt false st po = st ∧ load_odt true st none = st ∧
      load_olc_state st file = st := by
  refine ⟨rfl, rfl, rfl, rfl, ?_⟩
  unfold load_olc_state
  rw [he]

/-- C6 witness at a concrete erroring container file and concrete parse
failures. -/
theorem C6_failed_load_untouched_witness :
    (load_olc [9, 9, 9, 9]).result = .error .malformedContainer ∧
      (load_docx false sampleState (some ⟨[]⟩) = sampleState ∧
        load_docx true sampleState none = sampleState ∧
        load_odt false sampleState (some ⟨[], [], []⟩) = sampleState ∧
        load_odt true sampleState none = sampleState ∧
        load_olc_state sampleState [9, 9, 9, 9] = sampleState) :=
  ⟨by decide,
    C6_failed_load_untouched sampleState (some ⟨[]⟩) (some ⟨[], [], []⟩)
      [9, 9, 9, 9] .malformedContainer (by decide)⟩

/-- C7 (observed divergence): with python-docx unavailable, saving to a
`.docx` path opens no file — the fail-fast half of the claim holds, nothing
is written — yet `save_to_file` still sets `current_file`, clears
`is_modified` and returns `True`: the overall save operation reports
success despite the failed save, because `save_as_docx` swallows the
failure and `save_to_file` falls through. -/
theorem C7_unavailable_docx_save_reports_success (st : EditorState)
    (now : String) (odtA : Bool) :
    (save_to_file false odtA now st "doc.docx").written = none ∧
      (save_to_file false odtA now st "doc.docx").success = true ∧
      (save_to_file false odtA now st "doc.docx").state.isModified = false ∧
      (save_to_file false odtA now st "doc.docx").state.currentFile =
        some "doc.docx" :=
  ⟨rfl, rfl, rfl, rfl⟩

/-- C8 counterexample: exporting a document holding a 1000 px wide image run
to the office-suite format emits a frame whose width attribute is
1000/96 inches (≈ 10.42 in), and that value is not the claimed clamped
6 inches — `save_as_odt` computes sizes at 96 px/inch but has no 6-inch
page-width clamp. -/
theorem C8_odt_clamp_counterexample :
    save_as_odt true wideImageState =
      some [[OdtItem.frame ((1000 : ℚ) / 96) ((500 : ℚ) / 96)
        "Pictures/image_1.png"]] ∧
      ((1000 : ℚ) / 96) ≠ 6 := by
  constructor
  · rfl
  · norm_num

/-- C8 amended: frame sizes are computed from pixel dimensions at
96 px/inch, but only the word-processor export clamps to the 6-inch page
width: for a 1000 px wide image run whose resource resolves,
`save_as_docx`'s fragment walk emits a picture of exactly 6 in with the
height rescaled by the same ratio, while `save_as_odt`'s emits an unclamped
frame of 1000/96 ≈ 10.42 in. -/
theorem C8_amended_sizes (res : List (String × Blob)) (name : String)
    (h : ℚ) (blob : Blob) (c : Nat)
    (hres : lookupRes res name = some blob) :
    docx_export_run res (.imageRun ⟨name, 1000, h⟩) =
      [.picture 6 (h / 96 * (6 / ((1000 : ℚ) / 96))) blob] ∧
      (odt_export_run res c (.imageRun ⟨name, 1000, h⟩)).2 =
        [.frame ((1000 : ℚ) / 96) (h / 96)
          ("Pictures/image_" ++ toString (c + 1) ++ ".png")] := by
  constructor
  · simp only [docx_export_run, hres]
    rw [if_pos (by norm_num : (1000 : ℚ) / 96 > 6)]
  · simp only [odt_export_run, hres]

/-- C8 amended witness at the concrete 1000×500 image. -/
theorem C8_amended_sizes_witness :
    lookupRes [("big", [9])] "big" = some [9] ∧
      (docx_export_run [("big", [9])] (.imageRun ⟨"big", 1000, 500⟩) =
        [.picture 6 ((500 : ℚ) / 96 * (6 / ((1000 : ℚ) / 96))) [9]] ∧
        (odt_export_run [("big", [9])] 0 (.imageRun ⟨"big", 1000, 500⟩)).2 =
          [.frame ((1000 : ℚ) / 96) ((500 : ℚ) / 96)
            ("Pictures/image_" ++ toString (0 + 1) ++ ".png")]) :=
  ⟨by decide, C8_amended_sizes [("big", [9])] "big" 500 [9] 0 (by decide)⟩

/-- C9: a hyperlink run (non-empty target) exports blue and underlined in
both the word-processor and the office-suite formats regardless of the
stored CharFormat foreground color: every docx item it emits carries blue
and underline (both the forced ordinary run and the `w:hyperlink` element),
and the ODT link's span style is `#0000FF` with a solid underline. -/
theorem C9_hyperlink_forced_blue (res : List (String × Blob)) (c : Nat)
    (t u : String) (fmt : CharFormat) (hu : u ≠ "") :
    (∀ item ∈ docx_export_run res (.textRun t (some u) fmt),
        docx_item_blue_underlined item) ∧
      (∀ item ∈ (odt_export_run res c (.textRun t (some u) fmt)).2,
        odt_item_blue_underlined item) := by
  constructor
  · intro item hitem
    simp only [docx_export_run, if_pos hu, List.mem_cons,
      List.not_mem_nil, or_false] at hitem
    rcases hitem with rfl | rfl
    · exact ⟨rfl, rfl⟩
    · exact ⟨rfl, rfl⟩
  · intro item hitem
    simp only [odt_export_run, if_pos hu, List.mem_cons,
      List.not_mem_nil, or_false] at hitem
    subst hitem
    exact ⟨rfl, rfl⟩

/-- C9 witness: a green-colored hyperlink run still exports blue and
underlined. -/
theorem C9_hyperlink_forced_blue_witness :
    ("http://x" : String) ≠ "" ∧
      ((∀ item ∈ docx_export_run []
          (.textRun "go" (some "http://x")
            { default_char_format with foreground := ⟨0, 255, 0⟩ }),
          docx_item_blue_underlined item) ∧
        (∀ item ∈ (odt_export_run [] 0
            (.textRun "go" (some "http://x")
              { default_char_format with foreground := ⟨0, 255, 0⟩ })).2,
          odt_item_blue_underlined item)) :=
  ⟨by decide,
    C9_hyperlink_forced_blue [] 0 "go" "http://x"
      { default_char_format with foreground := ⟨0, 255, 0⟩ } (by decide)⟩

/-- C10: the docx export of a hyperlink fragment emits its text twice —
once as an ordinary run (forced blue and underlined) appended to the
paragraph and once more inside the `w:hyperlink` element appended right
after it — so the exported paragraph's visible text contains the link text
duplicated. -/
theorem C10_hyperlink_text_duplicated (res : List (String × Blob))
    (t u : String) (fmt : CharFormat) (hu : u ≠ "") :
    docx_export_run res (.textRun t (some u) fmt) =
      [.run t
        { docx_props_of_fmt fmt with
          underline := true
          color := ⟨0, 0, 255⟩ },
        add_hyperlink u t] ∧
      docx_items_text (docx_export_run res (.textRun t (some u) fmt)) =
        t ++ t := by
  have h1 : docx_export_run res (.textRun t (some u) fmt) =
      [.run t
        { docx_props_of_fmt fmt with
          underline := true
          color := ⟨0, 0, 255⟩ },
        add_hyperlink u t] := by
    simp only [docx_export_run, if_pos hu]
  refine ⟨h1, ?_⟩
  rw [h1]
  show t ++ (t ++ "") = t ++ t
  rw [string_append_empty]

/-- C10 witness: the concrete exported items and their doubled text. -/
theorem C10_hyperlink_text_duplicated_witness :
    ("http://y" : String) ≠ "" ∧
      (docx_export_run [] (.textRun "click" (some "http://y")
          default_char_format) =
        [.run "click"
          { docx_props_of_fmt default_char_format with
            underline := true
            color := ⟨0, 0, 255⟩ },
          add_hyperlink "http://y" "click"] ∧
        docx_items_text (docx_export_run []
          (.textRun "click" (some "http://y") default_char_format)) =
          "click" ++ "click") :=
  ⟨by decide,
    C10_hyperlink_text_duplicated [] "click" "http://y" default_char_format
      (by decide)⟩

/-- C1: writing the container and reading it back reproduces the model's
markup-derived reconstruction exactly (and hence, by the markup round-trip,
the model itself); the model is rebuilt from the snapshot's `html_content`
field only — the reconstruction is invariant under any change to the
`plain_text` cache — and the snapshot's image dict holds exactly the set of
image identifiers referenced by some run of the document, no more, no
fewer. -/
theorem C1_container_round_trip (now p k : String) (st st0 : EditorState)
    (hwf : resources_resolve st)
    (hlen : (gzip_compress (pEncSnapshot (build_olc_data now st))).length <
      2 ^ 64) :
    (load_olc (save_as_olc now st)).result =
        .ok (build_olc_data now st, false) ∧
      (load_olc_state st0 (save_as_olc now st)).doc =
        set_html (markup_export st.doc) ∧
      set_html (markup_export st.doc) = st.doc ∧
      doc_of_snapshot { build_olc_data now st with plain_text := p } =
        doc_of_snapshot (build_olc_data now st) ∧
      (k ∈ keysOf (build_olc_data now st).images ↔ references st.doc k) := by
  have hv : f32GtOne (decodeF32 f32OneBytes) = false := by
    norm_num [f32GtOne, decodeF32, leNum, f32OneBytes]
  have hp : pParseSnapshot (pEncSnapshot (build_olc_data now st)) =
      some (build_olc_data now st) := by
    have h := pParseSnapshot_pEncSnapshot (build_olc_data now st) []
    rwa [List.append_nil] at h
  have hload : load_olc (save_as_olc now st) =
      ⟨.ok (build_olc_data now st, false),
        16 + (gzip_compress (pEncSnapshot (build_olc_data now st))).length⟩ := by
    simp only [save_as_olc]
    rw [load_olc_wellformed f32OneBytes _ rfl hlen]
    simp [gzip_decompress, gzip_compress, hp, hv]
  refine ⟨by rw [hload], ?_, set_html_markup_export st.doc, rfl, ?_⟩
  · unfold load_olc_state
    rw [hload]
    rfl
  · exact mem_keysOf_collect_images st k (resources_resolve_spec st hwf)

/-- C1 witness at a concrete one-block document with one resolving image. -/
theorem C1_container_round_trip_witness :
    (resources_resolve sampleState ∧
      (gzip_compress (pEncSnapshot (build_olc_data "t" sampleState))).length <
        2 ^ 64) ∧
      ((load_olc (save_as_olc "t" sampleState)).result =
          .ok (build_olc_data "t" sampleState, false) ∧
        (load_olc_state emptyState (save_as_olc "t" sampleState)).doc =
          set_html (markup_export sampleState.doc) ∧
        set_html (markup_export sampleState.doc) = sampleState.doc ∧
        doc_of_snapshot
            { build_olc_data "t" sampleState with plain_text := "q" } =
          doc_of_snapshot (build_olc_data "t" sampleState) ∧
        ("img1" ∈ keysOf (build_olc_data "t" sampleState).images ↔
          references sampleState.doc "img1")) :=
  ⟨⟨by decide, by decide⟩,
    C1_container_round_trip "t" "q" "img1" sampleState emptyState (by decide)
      (by decide)⟩
